import Mathlib

/-!
Shallow embedding of the statistical core of `ab_test_analyzer.py` (class
`ABTestAnalyzer`): data preparation (`load_and_prepare_data`), the data-quality
validator (`_data_quality_checks`), the power estimator (`power_analysis`) and
the two-proportion testing pipeline (`statistical_tests`).

Modelling conventions:
* A pandas row of the merged dataset is an `Obs`; the merged `DataFrame` is a
  `List Obs` (keeping row order, which pandas preserves).
* Python/numpy doubles are modelled as `ℚ` wherever the source only performs
  field arithmetic on them.  Where the source can divide by zero *on numpy
  values* (which yields `inf`/`nan` with a suppressed `RuntimeWarning`, never a
  raised error — the script installs `warnings.filterwarnings('ignore')`), the
  result is a `PyFloat`, a four-point model of IEEE-754 special values, or an
  `Option ℚ` with `none` standing for NaN.
* The external numeric primitives (`scipy`/`statsmodels`: normal CDF `Phi`,
  normal quantile `ppf`, `sqrt`, `arcsin`, and the achieved-power routine
  `ttest_power`) are abstract function parameters of type `ℚ → ℚ` (resp.
  `ℚ → ℚ → ℚ → ℚ`); the algebra the source itself performs around them
  (statsmodels' documented pooled z-test and normal-approximation confidence
  interval, which lines 194 and 204 of the source invoke) is embedded
  explicitly.
* Exceptions are modelled with `Except`; pandas `.loc` lookups that can raise
  `KeyError` are the only failing operations in the embedded fragment.
-/

namespace ABTest

/-- One row of the merged experiment dataset (`pd.merge(ab_test, countries, on='id')`):
user id, group assignment (`con_treat`), page actually shown, binary outcome
(`converted`), and country (the stratum label). -/
structure Obs where
  id : ℕ
  con_treat : String
  page : String
  converted : ℕ
  country : String
deriving DecidableEq, Repr

/-- Count, as `self.data.duplicated('id').sum()` does, the rows whose id already
occurred at a strictly earlier position (`seen` holds the ids of the rows
already scanned). -/
def duplicatedCountAux : List ℕ → List Obs → ℕ
  | _, [] => 0
  | seen, o :: rest =>
      (if o.id ∈ seen then 1 else 0) + duplicatedCountAux (o.id :: seen) rest

/-- Number of duplicate-id rows found at line 38 of the source. -/
def duplicatedCount (d : List Obs) : ℕ := duplicatedCountAux [] d

/-- Core of `drop_duplicates(subset='id')` with pandas' default `keep='first'`:
a row is retained exactly when its id has not been seen at an earlier
position. -/
def dedupByIdAux : List ℕ → List Obs → List Obs
  | _, [] => []
  | seen, o :: rest =>
      if o.id ∈ seen then dedupByIdAux seen rest
      else o :: dedupByIdAux (o.id :: seen) rest

/-- Deduplication by id, keeping the first occurrence (line 43 of the source). -/
def dedupById (d : List Obs) : List Obs := dedupByIdAux [] d

/-- Lines 41–44 of `load_and_prepare_data`: duplicates are dropped only when at
least one was found (the result is the same list either way, but the embedded
control flow mirrors the source). -/
def prepared (d : List Obs) : List Obs :=
  if 0 < duplicatedCount d then dedupById d else d

/-- Order-of-first-appearance list of the distinct values of a column, as
`pandas.unique` / the index of `value_counts` produce them. -/
def uniqueValsAux {α : Type} [DecidableEq α] (seen : List α) : List α → List α
  | [] => []
  | a :: rest =>
      if a ∈ seen then uniqueValsAux seen rest
      else a :: uniqueValsAux (a :: seen) rest

/-- Distinct values of a list in order of first appearance. -/
def uniqueVals {α : Type} [DecidableEq α] (l : List α) : List α := uniqueValsAux [] l

/-- Rows of one assignment group (`self.data[self.data['con_treat'] == g]`). -/
def groupRows (d : List Obs) (g : String) : List Obs :=
  d.filter (fun o => o.con_treat == g)

/-- Sum of the binary `converted` column of a selection. -/
def sumConv (l : List Obs) : ℕ := (l.map (·.converted)).sum

/-- Cell of the `pd.crosstab(con_treat, page)` table: number of rows carrying
both labels. -/
def countGP (d : List Obs) (g p : String) : ℕ :=
  (d.filter (fun o => o.con_treat == g && o.page == p)).length

/-- Number of rows of one assignment group; equals the row sum
`assignment_check.loc[g].sum()` of the crosstab. -/
def countG (d : List Obs) (g : String) : ℕ :=
  (d.filter (fun o => o.con_treat == g)).length

/-- Whether the crosstab has a row labelled `g`, i.e. whether any observation
carries that `con_treat` value. -/
def hasGroup (d : List Obs) (g : String) : Bool :=
  d.any (fun o => o.con_treat == g)

/-- Failure modes of the validator.  The source has no dedicated error class:
the only way `_data_quality_checks` can fail is a pandas `KeyError` from a
`.loc[label]` lookup on a crosstab that lacks the row `label`.  The spec
instead postulates a dedicated `EmptyGroupError`; the constructor is declared
here so that the two failure modes can be compared, but no embedded code ever
produces it. -/
inductive DQError where
  | keyError (label : String)
  | emptyGroup
deriving DecidableEq, Repr

/-- Quantities computed (and printed) by `_data_quality_checks`, lines 60–93 of
the source: crosstab misassignment cells, group totals, misassignment rates,
the high-misassignment warning flag, the group-size ratio and the imbalance
warning flag. -/
structure ValidationReport where
  controlWithNew : ℕ
  treatmentWithOld : ℕ
  totalControl : ℕ
  totalTreatment : ℕ
  controlErrorRate : ℚ
  treatmentErrorRate : ℚ
  highMisassignment : Bool
  sizeRatio : ℚ
  unbalanced : Bool
deriving DecidableEq, Repr

/-- Model of `assignment_check.loc[g, p]`: pandas raises `KeyError` when the
crosstab has no row `g`; the column `p` is only looked up under the source's
`if p in assignment_check.columns` guard, so a missing column never reaches
this lookup. -/
def locGP (d : List Obs) (g p : String) : Except DQError ℕ :=
  if hasGroup d g then .ok (countGP d g p) else .error (.keyError g)

/-- Model of `assignment_check.loc[g].sum()`: `KeyError` when the crosstab has
no row `g`, otherwise the number of rows in group `g`. -/
def locG (d : List Obs) (g : String) : Except DQError ℕ :=
  if hasGroup d g then .ok (countG d g) else .error (.keyError g)

/-- Column labels of the crosstab: the distinct `page` values present. -/
def pagesOf (d : List Obs) : List String := d.map (·.page)

/-- Embedding of `_data_quality_checks` (lines 49–93).  The two misassignment
cells are read under the source's column-membership guards (lines 65–66), the
group totals by unguarded `.loc` row lookups (lines 68–69, the only failing
operations), the misassignment rates with the `if total > 0 else 0` guards
(lines 71–72), and the size ratio as `min/max` of `value_counts` (line 87).
The printed warnings of lines 77–80 and 90–93 are modelled as the two Boolean
flags. -/
def dataQualityChecks (d : List Obs) : Except DQError ValidationReport := do
  let controlWithNew ← if "new_page" ∈ pagesOf d then locGP d "control" "new_page" else pure 0
  let treatmentWithOld ← if "old_page" ∈ pagesOf d then locGP d "treatment" "old_page" else pure 0
  let totalControl ← locG d "control"
  let totalTreatment ← locG d "treatment"
  let controlErrorRate : ℚ :=
    if 0 < totalControl then (controlWithNew : ℚ) / totalControl else 0
  let treatmentErrorRate : ℚ :=
    if 0 < totalTreatment then (treatmentWithOld : ℚ) / totalTreatment else 0
  let sizes := (uniqueVals (d.map (·.con_treat))).map (countG d)
  let sizeRatio : ℚ :=
    match sizes.min?, sizes.max? with
    | some a, some b => (a : ℚ) / b
    | _, _ => 0
  pure
    { controlWithNew := controlWithNew
      treatmentWithOld := treatmentWithOld
      totalControl := totalControl
      totalTreatment := totalTreatment
      controlErrorRate := controlErrorRate
      treatmentErrorRate := treatmentErrorRate
      highMisassignment := decide (controlErrorRate > 1/100) || decide (treatmentErrorRate > 1/100)
      sizeRatio := sizeRatio
      unbalanced := decide (sizeRatio < 8/10) }

/-- Difference of the two sample proportions, `prop[0] - prop[1]` in
statsmodels' `proportions_ztest` and `treatment_rate - control_rate` in the
per-stratum loop. -/
def rateDiff (x1 n1 x2 n2 : ℕ) : ℚ := (x1 : ℚ) / n1 - (x2 : ℚ) / n2

/-- Pooled success rate `p_pooled = sum(count) / sum(nobs)` of
`proportions_ztest`. -/
def pHat (x1 n1 x2 n2 : ℕ) : ℚ := ((x1 : ℚ) + x2) / ((n1 : ℚ) + n2)

/-- Pooled variance `p_pooled * (1 - p_pooled) * (1/n1 + 1/n2)` of
`proportions_ztest`. -/
def pooledVar (x1 n1 x2 n2 : ℕ) : ℚ :=
  pHat x1 n1 x2 n2 * (1 - pHat x1 n1 x2 n2) * (1 / (n1 : ℚ) + 1 / (n2 : ℚ))

/-- The z statistic `(prop[0] - prop[1]) / sqrt(var_)`, with the square root
supplied by the abstract numeric collaborator `sq`. -/
def zStat (sq : ℚ → ℚ) (x1 n1 x2 n2 : ℕ) : ℚ :=
  rateDiff x1 n1 x2 n2 / sq (pooledVar x1 n1 x2 n2)

/-- Embedding of `statsmodels.stats.proportion.proportions_ztest` on two
samples with the default two-sided alternative: pooled z statistic and p-value
`2 * (1 - Phi |z|)`.  `none` models the IEEE NaN the library produces — with a
zero `nobs` in either arm the zero count divided by zero `nobs` is NaN and
poisons z and p; with a degenerate pooled rate (all failures or all successes)
the statistic is `0/0 = NaN`.  Both library divisions only emit a suppressed
numpy warning, never a raised error.  (The embedding assumes `count ≤ nobs`,
which holds at every call site since counts are sums of the binary `converted`
column over the selected rows.) -/
def proportions_ztest (Phi sq : ℚ → ℚ) (x1 n1 x2 n2 : ℕ) : Option ℚ × Option ℚ :=
  if n1 = 0 ∨ n2 = 0 then (none, none)
  else if pooledVar x1 n1 x2 n2 = 0 then (none, none)
  else (some (zStat sq x1 n1 x2 n2),
        some (2 * (1 - Phi |zStat sq x1 n1 x2 n2|)))

/-- Embedding of `statsmodels.stats.proportion.proportion_confint` with its
default normal-approximation method on one `(count, nobs)` pair (the source
passes both pairs at once; the computation is elementwise):
`q ± ppf(1 - alpha/2) * sqrt(q * (1 - q) / nobs)`, with the normal quantile
`ppf` and the square root abstract. -/
def proportion_confint (ppf sq : ℚ → ℚ) (count nobs : ℕ) (alpha : ℚ) : ℚ × ℚ :=
  ((count : ℚ) / nobs - ppf (1 - alpha / 2) * sq ((count : ℚ) / nobs * (1 - (count : ℚ) / nobs) / nobs),
   (count : ℚ) / nobs + ppf (1 - alpha / 2) * sq ((count : ℚ) / nobs * (1 - (count : ℚ) / nobs) / nobs))

/-- Four-point model of the IEEE-754 special values a numpy double can take in
the overall branch of `statistical_tests`, where divisions are not guarded:
a finite value (`val`), the two infinities, and NaN. -/
inductive PyFloat where
  | val (q : ℚ)
  | inf
  | ninf
  | nan
deriving DecidableEq, Repr

namespace PyFloat

/-- Model of numpy's float division of two nonnegative integer counts
(`warnings` suppressed): `n/0` is `inf` for `n > 0` and NaN for `0/0`. -/
def npRat (num den : ℕ) : PyFloat :=
  if den = 0 then (if num = 0 then nan else inf) else val ((num : ℚ) / den)

/-- IEEE subtraction on the four-point float model. -/
def sub : PyFloat → PyFloat → PyFloat
  | val a, val b => val (a - b)
  | val _, inf => ninf
  | val _, ninf => inf
  | val _, nan => nan
  | inf, val _ => inf
  | inf, inf => nan
  | inf, ninf => inf
  | inf, nan => nan
  | ninf, val _ => ninf
  | ninf, inf => ninf
  | ninf, ninf => nan
  | ninf, nan => nan
  | nan, _ => nan

/-- IEEE division on the four-point float model (finite operands of the
embedded code are produced by `npRat`, hence nonnegative; `x/0` takes the sign
of `x`, `0/0` is NaN). -/
def div : PyFloat → PyFloat → PyFloat
  | val a, val b =>
      if b = 0 then (if 0 < a then inf else if a < 0 then ninf else nan)
      else val (a / b)
  | val _, inf => val 0
  | val _, ninf => val 0
  | val _, nan => nan
  | inf, val b => if 0 ≤ b then inf else ninf
  | inf, inf => nan
  | inf, ninf => nan
  | inf, nan => nan
  | ninf, val b => if 0 ≤ b then ninf else inf
  | ninf, inf => nan
  | ninf, ninf => nan
  | ninf, nan => nan
  | nan, _ => nan

/-- IEEE multiplication on the four-point float model. -/
def mul : PyFloat → PyFloat → PyFloat
  | val a, val b => val (a * b)
  | val a, inf => if 0 < a then inf else if a < 0 then ninf else nan
  | val a, ninf => if 0 < a then ninf else if a < 0 then inf else nan
  | val _, nan => nan
  | inf, val b => if 0 < b then inf else if b < 0 then ninf else nan
  | ninf, val b => if 0 < b then ninf else if b < 0 then inf else nan
  | inf, inf => inf
  | inf, ninf => ninf
  | inf, nan => nan
  | ninf, inf => ninf
  | ninf, ninf => inf
  | ninf, nan => nan
  | nan, _ => nan

end PyFloat

/-- IEEE comparison `p < a` for a possibly-NaN p-value: every comparison with
NaN is `False` in Python, so a NaN p-value never sets a significance flag. -/
def optLt (p : Option ℚ) (a : ℚ) : Bool :=
  match p with
  | some q => decide (q < a)
  | none => false

/-- Per-stratum entry of the `results` dictionary (lines 265–275 of the
source).  Rates and effects are plain rationals because the enclosing guard
`c_size > 0 and t_size > 0` keeps every division body well-defined, except the
relative effect, which carries its own `if c_rate > 0 else 0` guard. -/
structure StratumResult where
  control_rate : ℚ
  treatment_rate : ℚ
  effect_size : ℚ
  relative_effect : ℚ
  z_stat : Option ℚ
  p_value : Option ℚ
  p_value_adjusted : Bool
  ci_low : ℚ
  ci_high : ℚ
deriving DecidableEq, Repr

/-- The `results['overall']` entry (lines 209–219).  Rates, effect and
relative effect are `PyFloat` because none of these divisions is guarded in
the overall branch. -/
structure OverallResult where
  control_rate : PyFloat
  treatment_rate : PyFloat
  effect_size : PyFloat
  relative_effect : PyFloat
  z_stat : Option ℚ
  p_value : Option ℚ
  ci_low : ℚ
  ci_high : ℚ
  significant : Bool
deriving DecidableEq, Repr

/-- The full `results` dictionary returned by `statistical_tests`: the overall
entry plus one entry per country key, in loop order. -/
structure ResultSet where
  overall : OverallResult
  strata : List (String × StratumResult)
deriving DecidableEq, Repr

/-- Rows of one stratum (`self.data[self.data['country'] == c]`). -/
def countryRows (d : List Obs) (c : String) : List Obs :=
  d.filter (fun o => o.country == c)

/-- `c_size` of the per-stratum loop: control rows of stratum `c`. -/
def cSizeOf (d : List Obs) (c : String) : ℕ :=
  (groupRows (countryRows d c) "control").length

/-- `t_size` of the per-stratum loop. -/
def tSizeOf (d : List Obs) (c : String) : ℕ :=
  (groupRows (countryRows d c) "treatment").length

/-- `c_conv` of the per-stratum loop. -/
def cConvOf (d : List Obs) (c : String) : ℕ :=
  sumConv (groupRows (countryRows d c) "control")

/-- `t_conv` of the per-stratum loop. -/
def tConvOf (d : List Obs) (c : String) : ℕ :=
  sumConv (groupRows (countryRows d c) "treatment")

/-- Body of the guarded branch of the per-stratum loop (lines 252–275): the
z-test on `([t_conv, c_conv], [t_size, c_size])`, rates, absolute and guarded
relative effect, the confidence interval at the Bonferroni-adjusted alpha
`bAlpha` combined by opposite bounds, and the corrected significance flag
`p_val < bonferroni_alpha`. -/
def mkStratumResult (Phi ppf sq : ℚ → ℚ) (bAlpha : ℚ) (d : List Obs) (c : String) :
    StratumResult :=
  let zp := proportions_ztest Phi sq (tConvOf d c) (tSizeOf d c) (cConvOf d c) (cSizeOf d c)
  let cRate : ℚ := (cConvOf d c : ℚ) / (cSizeOf d c)
  let tRate : ℚ := (tConvOf d c : ℚ) / (tSizeOf d c)
  let ciT := proportion_confint ppf sq (tConvOf d c) (tSizeOf d c) bAlpha
  let ciC := proportion_confint ppf sq (cConvOf d c) (cSizeOf d c) bAlpha
  { control_rate := cRate
    treatment_rate := tRate
    effect_size := tRate - cRate
    relative_effect := if 0 < cRate then (tRate - cRate) / cRate * 100 else 0
    z_stat := zp.1
    p_value := zp.2
    p_value_adjusted := optLt zp.2 bAlpha
    ci_low := ciT.1 - ciC.2
    ci_high := ciT.2 - ciC.1 }

/-- One iteration of the per-stratum loop (lines 239–275): the stratum is
entered into the results dictionary only under the guard
`c_size > 0 and t_size > 0` (line 251); otherwise the iteration falls through
silently and the stratum is simply absent. -/
def stratumEntry (Phi ppf sq : ℚ → ℚ) (bAlpha : ℚ) (d : List Obs) (c : String) :
    Option (String × StratumResult) :=
  if 0 < cSizeOf d c ∧ 0 < tSizeOf d c then
    some (c, mkStratumResult Phi ppf sq bAlpha d c)
  else none

/-- Number of tests used by the Bonferroni correction (lines 232–233):
`len(self.data['country'].unique())`, counted over all distinct country
values, before any per-stratum guard runs. -/
def nTests (d : List Obs) : ℕ := (uniqueVals (d.map (·.country))).length

/-- The overall-scope sizes and conversion counts (lines 185–191). -/
def cSizeAll (d : List Obs) : ℕ := (groupRows d "control").length

/-- Overall treatment group size. -/
def tSizeAll (d : List Obs) : ℕ := (groupRows d "treatment").length

/-- Overall control conversions. -/
def cConvAll (d : List Obs) : ℕ := sumConv (groupRows d "control")

/-- Overall treatment conversions. -/
def tConvAll (d : List Obs) : ℕ := sumConv (groupRows d "treatment")

/-- The overall branch of `statistical_tests` (lines 183–228): z-test at the
nominal alpha, rates and effects as unguarded numpy float divisions
(`PyFloat`), relative effect `(effect / control_rate) * 100` without any
guard, confidence interval at the nominal alpha combined by opposite bounds,
and the nominal significance flag `p_value < self.alpha`. -/
def overallResult (Phi ppf sq : ℚ → ℚ) (alpha : ℚ) (d : List Obs) : OverallResult :=
  let zp := proportions_ztest Phi sq (tConvAll d) (tSizeAll d) (cConvAll d) (cSizeAll d)
  let cRate := PyFloat.npRat (cConvAll d) (cSizeAll d)
  let tRate := PyFloat.npRat (tConvAll d) (tSizeAll d)
  let effect := tRate.sub cRate
  let ciT := proportion_confint ppf sq (tConvAll d) (tSizeAll d) alpha
  let ciC := proportion_confint ppf sq (cConvAll d) (cSizeAll d) alpha
  { control_rate := cRate
    treatment_rate := tRate
    effect_size := effect
    relative_effect := (effect.div cRate).mul (.val 100)
    z_stat := zp.1
    p_value := zp.2
    ci_low := ciT.1 - ciC.2
    ci_high := ciT.2 - ciC.1
    significant := optLt zp.2 alpha }

/-- The per-stratum half of `statistical_tests` (lines 230–283): the loop runs
over all distinct countries with the Bonferroni alpha `alpha / n_tests`
computed once before the loop. -/
def strataResults (Phi ppf sq : ℚ → ℚ) (alpha : ℚ) (d : List Obs) :
    List (String × StratumResult) :=
  (uniqueVals (d.map (·.country))).filterMap
    (stratumEntry Phi ppf sq (alpha / (nTests d : ℚ)) d)

/-- Embedding of `statistical_tests` (lines 177–284).  Every operation the
source performs here is non-raising: pandas boolean selection, numpy sums and
float divisions (NaN/inf on zero denominators, warnings suppressed), and the
two statsmodels calls; accordingly the embedding is a total function into
`ResultSet`. -/
def statistical_tests (Phi ppf sq : ℚ → ℚ) (alpha : ℚ) (d : List Obs) : ResultSet :=
  { overall := overallResult Phi ppf sq alpha d
    strata := strataResults Phi ppf sq alpha d }

/-- Embedding of `power_analysis` (lines 145–175): overall group rates, Cohen's
h through the abstract `arcsin`/`sqrt` collaborators, the average group size
`(n_control + n_treatment) / 2`, and the achieved power obtained from the
abstract two-sided power routine `powerFn` (the source's
`ttest_power(effect_size, n_avg, self.alpha, alternative='two-sided')`). -/
def power_analysis (arcsinFn sq : ℚ → ℚ) (powerFn : ℚ → ℚ → ℚ → ℚ) (alpha : ℚ)
    (d : List Obs) : ℚ :=
  let cRate : ℚ := (cConvAll d : ℚ) / (cSizeAll d : ℚ)
  let tRate : ℚ := (tConvAll d : ℚ) / (tSizeAll d : ℚ)
  let effect_size := 2 * (arcsinFn (sq tRate) - arcsinFn (sq cRate))
  let nAvg : ℚ := ((cSizeAll d : ℚ) + (tSizeAll d : ℚ)) / 2
  powerFn effect_size nAvg alpha

/-- Modelled from the spec (section 4.4): the number of strata the
Multiple-Comparison Corrector is supposed to divide by — distinct stratum
values restricted to those in which both groups have at least one observation.
The source has no such definition; this one exists only to be compared with
the embedded `nTests`. -/
def specStrataCount (d : List Obs) : ℕ :=
  ((uniqueVals (d.map (·.country))).filter
    (fun c => decide (0 < cSizeOf d c) && decide (0 < tSizeOf d c))).length

/-! Helper lemmas about the embedded pipeline. -/

theorem stratumEntry_eq_some {Phi ppf sq : ℚ → ℚ} {b : ℚ} {d : List Obs} {c c2 : String}
    {r : StratumResult} (h : stratumEntry Phi ppf sq b d c = some (c2, r)) :
    c2 = c ∧ 0 < cSizeOf d c ∧ 0 < tSizeOf d c ∧ r = mkStratumResult Phi ppf sq b d c := by
  unfold stratumEntry at h
  split at h
  · rename_i hg
    simp only [Option.some.injEq, Prod.mk.injEq] at h
    exact ⟨h.1.symm, hg.1, hg.2, h.2.symm⟩
  · exact Option.noConfusion h

theorem mem_strata_iff {Phi ppf sq : ℚ → ℚ} {a : ℚ} {d : List Obs} {c : String}
    {r : StratumResult} :
    (c, r) ∈ (statistical_tests Phi ppf sq a d).strata ↔
      c ∈ uniqueVals (d.map (·.country)) ∧ 0 < cSizeOf d c ∧ 0 < tSizeOf d c ∧
        r = mkStratumResult Phi ppf sq (a / (nTests d : ℚ)) d c := by
  show (c, r) ∈ strataResults Phi ppf sq a d ↔ _
  unfold strataResults
  rw [List.mem_filterMap]
  constructor
  · rintro ⟨c2, hc2, he⟩
    obtain ⟨rfl, h1, h2, h3⟩ := stratumEntry_eq_some he
    exact ⟨hc2, h1, h2, h3⟩
  · rintro ⟨hc, h1, h2, rfl⟩
    exact ⟨c, hc, by rw [stratumEntry, if_pos ⟨h1, h2⟩]⟩

theorem mem_dedupByIdAux {seen : List ℕ} {l : List Obs} {o : Obs}
    (h : o ∈ dedupByIdAux seen l) : o ∈ l := by
  induction l generalizing seen with
  | nil => exact absurd h (List.not_mem_nil o)
  | cons a rest ih =>
      unfold dedupByIdAux at h
      split at h
      · exact List.mem_cons_of_mem a (ih h)
      · rcases List.mem_cons.1 h with h1 | h1
        · exact h1 ▸ List.mem_cons_self a rest
        · exact List.mem_cons_of_mem a (ih h1)

theorem dedupByIdAux_find {seen : List ℕ} {l : List Obs} {o : Obs}
    (h : o ∈ dedupByIdAux seen l) :
    o.id ∉ seen ∧ l.find? (fun x => x.id == o.id) = some o := by
  induction l generalizing seen with
  | nil => exact absurd h (List.not_mem_nil o)
  | cons a rest ih =>
      unfold dedupByIdAux at h
      split at h
      · rename_i hseen
        obtain ⟨hns, hfind⟩ := ih h
        have hne : (a.id == o.id) = false := by
          apply beq_eq_false_iff_ne.2
          intro he
          exact hns (he ▸ hseen)
        refine ⟨hns, ?_⟩
        rw [List.find?_cons, hne]
        exact hfind
      · rename_i hseen
        rcases List.mem_cons.1 h with h1 | h1
        · subst h1
          refine ⟨hseen, ?_⟩
          rw [List.find?_cons, beq_self_eq_true]
        · obtain ⟨hns, hfind⟩ := ih h1
          have hno : o.id ∉ seen := fun hs => hns (List.mem_cons_of_mem _ hs)
          have hne : o.id ≠ a.id := fun he => hns (he ▸ List.mem_cons_self a.id seen)
          have hne2 : (a.id == o.id) = false := beq_eq_false_iff_ne.2 (Ne.symm hne)
          refine ⟨hno, ?_⟩
          rw [List.find?_cons, hne2]
          exact hfind

theorem nodup_ids_dedupByIdAux (seen : List ℕ) (l : List Obs) :
    ((dedupByIdAux seen l).map (·.id)).Nodup := by
  induction l generalizing seen with
  | nil => simp [dedupByIdAux]
  | cons a rest ih =>
      unfold dedupByIdAux
      split
      · exact ih seen
      · rename_i hseen
        simp only [List.map_cons, List.nodup_cons]
        refine ⟨?_, ih (a.id :: seen)⟩
        intro hmem
        obtain ⟨o, ho, hid⟩ := List.mem_map.1 hmem
        have := (dedupByIdAux_find ho).1
        exact this (hid ▸ List.mem_cons_self a.id seen)

theorem duplicatedCountAux_eq_zero {seen : List ℕ} {l : List Obs}
    (hn : (l.map (·.id)).Nodup) (hd : ∀ i ∈ seen, i ∉ l.map (·.id)) :
    duplicatedCountAux seen l = 0 := by
  induction l generalizing seen with
  | nil => rfl
  | cons a rest ih =>
      simp only [List.map_cons, List.nodup_cons] at hn
      have hns : a.id ∉ seen := by
        intro hs
        exact hd a.id hs (List.mem_cons_self _ _)
      unfold duplicatedCountAux
      rw [if_neg hns]
      rw [Nat.zero_add]
      apply ih hn.2
      intro i hi
      rcases List.mem_cons.1 hi with h1 | h1
      · exact h1 ▸ hn.1
      · intro hmem
        exact hd i h1 (List.mem_cons_of_mem _ hmem)

theorem nodup_of_duplicatedCountAux {seen : List ℕ} {l : List Obs}
    (h : duplicatedCountAux seen l = 0) :
    (l.map (·.id)).Nodup ∧ ∀ i ∈ seen, i ∉ l.map (·.id) := by
  induction l generalizing seen with
  | nil => exact ⟨List.nodup_nil, fun i _ => List.not_mem_nil i⟩
  | cons a rest ih =>
      unfold duplicatedCountAux at h
      rw [Nat.add_eq_zero] at h
      obtain ⟨h1, h2⟩ := h
      have hns : a.id ∉ seen := by
        intro hs
        rw [if_pos hs] at h1
        exact one_ne_zero h1
      obtain ⟨hn, hdisj⟩ := ih h2
      have hna : a.id ∉ rest.map (·.id) :=
        hdisj a.id (List.mem_cons_self _ _)
      refine ⟨?_, ?_⟩
      · rw [List.map_cons, List.nodup_cons]
        exact ⟨hna, hn⟩
      · intro i hi
        have hir : i ∉ rest.map (·.id) := hdisj i (List.mem_cons_of_mem _ hi)
        have hia : i ≠ a.id := fun he => hns (he ▸ hi)
        rw [List.map_cons]
        intro hmem
        rcases List.mem_cons.1 hmem with he | hm
        · exact hia he
        · exact hir hm

theorem duplicatedCount_eq_zero_of_nodup {d : List Obs}
    (h : (d.map (·.id)).Nodup) : duplicatedCount d = 0 :=
  duplicatedCountAux_eq_zero h (fun i hi => absurd hi (List.not_mem_nil i))

theorem duplicatedCount_dedupById (d : List Obs) : duplicatedCount (dedupById d) = 0 :=
  duplicatedCount_eq_zero_of_nodup (nodup_ids_dedupByIdAux [] d)

theorem duplicatedCount_prepared (d : List Obs) : duplicatedCount (prepared d) = 0 := by
  unfold prepared
  split
  · exact duplicatedCount_dedupById d
  · rename_i h
    exact Nat.eq_zero_of_not_pos h

theorem prepared_idemp (d : List Obs) : prepared (prepared d) = prepared d := by
  rw [prepared, if_neg]
  rw [duplicatedCount_prepared]
  exact lt_irrefl 0

theorem find_first_of_nodup {d : List Obs} (h : (d.map (·.id)).Nodup) :
    ∀ o ∈ d, d.find? (fun x => x.id == o.id) = some o := by
  induction d with
  | nil => intro o ho; exact absurd ho (List.not_mem_nil o)
  | cons a rest ih =>
      simp only [List.map_cons, List.nodup_cons] at h
      intro o ho
      rcases List.mem_cons.1 ho with h1 | h1
      · subst h1
        rw [List.find?_cons, beq_self_eq_true]
      · have hne : a.id ≠ o.id := by
          intro he
          exact h.1 (he ▸ List.mem_map.2 ⟨o, h1, rfl⟩)
        rw [List.find?_cons, beq_eq_false_iff_ne.2 hne]
        exact ih h.2 o h1

theorem prepared_find (d : List Obs) :
    ∀ o ∈ prepared d, d.find? (fun x => x.id == o.id) = some o := by
  unfold prepared
  split
  · exact fun o ho => (dedupByIdAux_find ho).2
  · rename_i h
    have h0 : duplicatedCount d = 0 := Nat.eq_zero_of_not_pos h
    exact find_first_of_nodup (nodup_of_duplicatedCountAux h0).1

theorem hasGroup_iff {d : List Obs} {g : String} :
    hasGroup d g = true ↔ 0 < countG d g := by
  unfold hasGroup countG
  rw [List.any_eq_true, List.length_pos, Ne, List.filter_eq_nil_iff]
  push_neg
  constructor
  · rintro ⟨o, ho, hp⟩
    exact ⟨o, ho, hp⟩
  · rintro ⟨o, ho, hp⟩
    exact ⟨o, ho, hp⟩

theorem dataQualityChecks_ok_iff (d : List Obs) :
    (∃ r, dataQualityChecks d = .ok r) ↔
      0 < countG d "control" ∧ 0 < countG d "treatment" := by
  rw [← hasGroup_iff, ← hasGroup_iff]
  by_cases hn : "new_page" ∈ pagesOf d <;>
    by_cases ho : "old_page" ∈ pagesOf d <;>
      by_cases hc : hasGroup d "control" = true <;>
        by_cases ht : hasGroup d "treatment" = true <;>
          simp [dataQualityChecks, locGP, locG, hn, ho, hc, ht, bind, Except.bind, pure,
            Except.pure]

theorem dataQualityChecks_error_keyError {d : List Obs} {e : DQError}
    (h : dataQualityChecks d = .error e) : ∃ g, e = .keyError g := by
  by_cases hn : "new_page" ∈ pagesOf d <;>
    by_cases ho : "old_page" ∈ pagesOf d <;>
      by_cases hc : hasGroup d "control" = true <;>
        by_cases ht : hasGroup d "treatment" = true <;>
          simp [dataQualityChecks, locGP, locG, hn, ho, hc, ht, bind, Except.bind, pure,
            Except.pure] at h <;>
            first
              | exact ⟨"control", h.symm⟩
              | exact ⟨"treatment", h.symm⟩

/-! Concrete datasets used by counterexamples and witnesses. -/

/-- Two distinct users, one per group, no duplicate ids. -/
def dNod : List Obs :=
  [⟨1, "control", "old_page", 0, "US"⟩, ⟨2, "treatment", "new_page", 1, "US"⟩]

/-- A collection whose treatment group is empty after deduplication. -/
def dC4 : List Obs := [⟨1, "control", "old_page", 0, "US"⟩]

/-- A collection whose control group is empty. -/
def dC10 : List Obs := [⟨1, "treatment", "old_page", 0, "US"⟩]

/-! Claim theorems. -/

/-- C9: deduplication is idempotent and keeps the first-seen representative:
on a collection with no duplicate identifiers the run reports zero removed
rows and leaves the collection unchanged; one pass of preparation always
leaves nothing further to remove, a second pass is the identity and yields the
identical validation outcome; and every retained observation is the first
occurrence of its identifier in the original collection. -/
theorem C9_dedup_idempotent_first_seen (d : List Obs) :
    ((d.map (·.id)).Nodup → duplicatedCount d = 0 ∧ prepared d = d)
    ∧ duplicatedCount (prepared d) = 0
    ∧ prepared (prepared d) = prepared d
    ∧ dataQualityChecks (prepared d) = dataQualityChecks (prepared (prepared d))
    ∧ ∀ o ∈ prepared d, d.find? (fun x => x.id == o.id) = some o := by
  refine ⟨?_, duplicatedCount_prepared d, prepared_idemp d, ?_, prepared_find d⟩
  · intro h
    have h0 := duplicatedCount_eq_zero_of_nodup h
    refine ⟨h0, ?_⟩
    rw [prepared, if_neg]
    rw [h0]
    exact lt_irrefl 0
  · rw [prepared_idemp]

/-- Witness for C9 at a concrete duplicate-free collection. -/
theorem C9_witness :
    (duplicatedCount dNod = 0 ∧ prepared dNod = dNod)
    ∧ dNod.find? (fun x => x.id == (1 : ℕ)) = some ⟨1, "control", "old_page", 0, "US"⟩ :=
  ⟨(C9_dedup_idempotent_first_seen dNod).1 (by decide),
   (C9_dedup_idempotent_first_seen dNod).2.2.2.2 ⟨1, "control", "old_page", 0, "US"⟩ (by decide)⟩

/-- C4 counterexample: on a deduplicated collection whose treatment group is
empty the validator does fail, but with the pandas key-lookup error from
`assignment_check.loc['treatment']`, not with the dedicated `EmptyGroupError`
the claim names — no such error class exists in the source. -/
theorem C4_counterexample :
    dataQualityChecks (prepared dC4) = .error (.keyError "treatment")
    ∧ DQError.keyError "treatment" ≠ DQError.emptyGroup := by
  exact ⟨rfl, by decide⟩

/-- C4 (amended): the validator fails exactly when, after deduplication,
the collection is empty or either group has zero observations — but the
failure is a key-lookup error on the missing group label (there is no
dedicated `EmptyGroupError` in the source); it never fails when both groups
are non-empty, and the anomaly quantities (misassignment rates, imbalance
ratio and their warning flags) are only report fields of the success value,
never raised errors. -/
theorem C4_empty_group_failure (d : List Obs) :
    ((∃ r, dataQualityChecks (prepared d) = .ok r) ↔
      0 < countG (prepared d) "control" ∧ 0 < countG (prepared d) "treatment")
    ∧ ∀ e, dataQualityChecks (prepared d) = .error e → ∃ g, e = .keyError g :=
  ⟨dataQualityChecks_ok_iff (prepared d),
   fun _ he => dataQualityChecks_error_keyError he⟩

/-- Witness for C4: a collection with both groups non-empty validates, and the
failing run of the empty-treatment collection fails with a key-lookup error. -/
theorem C4_witness :
    (∃ r, dataQualityChecks (prepared dNod) = .ok r)
    ∧ ∃ g, DQError.keyError "treatment" = DQError.keyError g :=
  ⟨(C4_empty_group_failure dNod).1.mpr (by decide),
   (C4_empty_group_failure dC4).2 (.keyError "treatment") rfl⟩

/-- C10 counterexample: for a collection whose control group has zero
observations the misassignment rate is not "reported as 0" — the computation
never reaches the guarded division because `assignment_check.loc['control']`
fails first with a key-lookup error. -/
theorem C10_counterexample :
    dataQualityChecks dC10 = .error (.keyError "control") := rfl

/-- C10 (amended): the missing-column guards do make an absent `new_page`
(resp. `old_page`) column yield a zero misassignment count, and whenever the
validator returns a report at all both group totals are positive, so the
`total > 0` guard's `else 0` branch is never exercised and the rates are the
plain quotients; a group with zero observations instead makes the whole
computation fail on the row lookup (it is not total there). -/
theorem C10_misassignment_totality {d : List Obs} {r : ValidationReport}
    (h : dataQualityChecks d = .ok r) :
    0 < r.totalControl ∧ 0 < r.totalTreatment
    ∧ r.controlErrorRate = (r.controlWithNew : ℚ) / r.totalControl
    ∧ r.treatmentErrorRate = (r.treatmentWithOld : ℚ) / r.totalTreatment
    ∧ ("new_page" ∉ pagesOf d → r.controlWithNew = 0)
    ∧ ("old_page" ∉ pagesOf d → r.treatmentWithOld = 0) := by
  have hct := (dataQualityChecks_ok_iff d).1 ⟨r, h⟩
  have hc : hasGroup d "control" = true := hasGroup_iff.2 hct.1
  have ht : hasGroup d "treatment" = true := hasGroup_iff.2 hct.2
  by_cases hn : "new_page" ∈ pagesOf d <;>
    by_cases hom : "old_page" ∈ pagesOf d <;>
      [skip; skip; skip; skip] <;>
      · simp only [dataQualityChecks, locGP, locG, hn, hom, hc, ht, if_true, if_false,
          if_pos, if_neg, bind, Except.bind, pure, Except.pure, ite_true, ite_false,
          Except.ok.injEq] at h
        subst h
        refine ⟨hct.1, hct.2, ?_, ?_, ?_, ?_⟩ <;>
          simp [hct.1, hct.2, hn, hom]

/-- Witness for C10 at a concrete collection where the `new_page` column is
absent from the crosstab and both groups are present. -/
theorem C10_witness :
    0 < ValidationReport.totalControl
        ⟨0, 1, 1, 1, 0, 1, true, 1, false⟩ := by
  have h : dataQualityChecks
      [⟨1, "control", "old_page", 0, "US"⟩, ⟨2, "treatment", "old_page", 0, "US"⟩]
      = .ok ⟨0, 1, 1, 1, 0, 1, true, 1, false⟩ := by
    simp +decide [dataQualityChecks, locGP, locG, countGP, countG, hasGroup, pagesOf,
      uniqueVals, uniqueValsAux, bind, Except.bind, pure, Except.pure, List.filter,
      List.min?, List.max?, List.foldl]
    norm_num
  exact (C10_misassignment_totality h).1

theorem mkStratum_rel_effect (Phi ppf sq : ℚ → ℚ) (b : ℚ) (d : List Obs) (c : String) :
    (mkStratumResult Phi ppf sq b d c).relative_effect
      = if 0 < (mkStratumResult Phi ppf sq b d c).control_rate
        then (mkStratumResult Phi ppf sq b d c).effect_size
              / (mkStratumResult Phi ppf sq b d c).control_rate * 100
        else 0 := rfl

theorem strata_keys (Phi ppf sq : ℚ → ℚ) (a : ℚ) (d : List Obs) :
    (statistical_tests Phi ppf sq a d).strata.map Prod.fst
      = (uniqueVals (d.map (·.country))).filter
          (fun c => decide (0 < cSizeOf d c) && decide (0 < tSizeOf d c)) := by
  show (strataResults Phi ppf sq a d).map Prod.fst = _
  unfold strataResults
  generalize uniqueVals (d.map (·.country)) = l
  induction l with
  | nil => rfl
  | cons c t ih =>
      rw [List.filterMap_cons, List.filter_cons]
      by_cases h : 0 < cSizeOf d c ∧ 0 < tSizeOf d c
      · have he : stratumEntry Phi ppf sq (a / (nTests d : ℚ)) d c
            = some (c, mkStratumResult Phi ppf sq (a / (nTests d : ℚ)) d c) := by
          rw [stratumEntry, if_pos h]
        have hb : (decide (0 < cSizeOf d c) && decide (0 < tSizeOf d c)) = true := by
          rw [Bool.and_eq_true, decide_eq_true_iff, decide_eq_true_iff]
          exact h
        rw [he, hb, if_pos rfl, List.map_cons, ih]
      · have he : stratumEntry Phi ppf sq (a / (nTests d : ℚ)) d c = none := by
          rw [stratumEntry, if_neg h]
        have hb : (decide (0 < cSizeOf d c) && decide (0 < tSizeOf d c)) = false := by
          rw [Bool.and_eq_false_iff]
          rcases Decidable.not_and_iff_or_not.1 h with h1 | h1
          · exact Or.inl (decide_eq_false h1)
          · exact Or.inr (decide_eq_false h1)
        rw [he, hb]
        simpa using ih

theorem strataResults_length (Phi ppf sq : ℚ → ℚ) (a : ℚ) (d : List Obs) :
    (statistical_tests Phi ppf sq a d).strata.length = specStrataCount d := by
  have h := congrArg List.length (strata_keys Phi ppf sq a d)
  rw [List.length_map] at h
  exact h

/-! Further concrete datasets. -/

/-- Two strata: US has both groups (control 1 of 2, treatment 1 of 1), UK has
only a control observation. -/
def dC2 : List Obs :=
  [⟨1, "control", "old_page", 0, "US"⟩, ⟨4, "control", "old_page", 1, "US"⟩,
   ⟨2, "treatment", "new_page", 1, "US"⟩, ⟨3, "control", "old_page", 0, "UK"⟩]

/-- Two strata, the UK one with zero treatment trials. -/
def dC3 : List Obs :=
  [⟨1, "control", "old_page", 0, "US"⟩, ⟨2, "treatment", "new_page", 1, "US"⟩,
   ⟨3, "control", "old_page", 1, "UK"⟩]

/-- A dataset whose overall control arm has zero trials. -/
def dC3b : List Obs := [⟨1, "treatment", "new_page", 1, "US"⟩]

/-- Concrete evaluation of the per-stratum results on `dNod` with identity
numeric collaborators, used to discharge membership hypotheses in witnesses. -/
theorem strata_dNod_eval :
    (statistical_tests id id id (1/20) dNod).strata
      = [("US", ⟨0, 1, 1, 0, some 2, some (-2), true, 1, 1⟩)] := by
  show strataResults id id id (1/20) dNod = _
  simp +decide [strataResults, stratumEntry, mkStratumResult, uniqueVals, uniqueValsAux,
    countryRows, cSizeOf, tSizeOf, cConvOf, tConvOf, groupRows, sumConv, List.filter,
    proportions_ztest, pooledVar, pHat, rateDiff, zStat, proportion_confint, optLt, nTests,
    dNod, List.filterMap_cons]
  norm_num

/-- Concrete evaluation of the per-stratum results on `dC2` with a constant
normal-CDF stand-in giving every well-defined test the p-value `3/100`. -/
theorem strata_dC2_eval :
    (statistical_tests (fun _ => 197/200) id id (1/20) dC2).strata
      = [("US", ⟨1/2, 1, 1/2, 100, some (3/2), some (3/100), false, 241/640, 399/640⟩)] := by
  show strataResults (fun _ => 197/200) id id (1/20) dC2 = _
  simp +decide [strataResults, stratumEntry, mkStratumResult, uniqueVals, uniqueValsAux,
    countryRows, cSizeOf, tSizeOf, cConvOf, tConvOf, groupRows, sumConv, List.filter,
    proportions_ztest, pooledVar, pHat, rateDiff, zStat, proportion_confint, optLt, nTests,
    dC2, List.filterMap_cons]
  norm_num

/-- C1 counterexample: in the stratum branch a zero control rate does not
produce a not-a-number marker — the relative effect is silently coerced to
the plain number `0` (the `else 0` of line 257) even though the absolute
effect is `1`, making the value indistinguishable from a genuinely null
relative effect. -/
theorem C1_counterexample :
    (statistical_tests id id id (1/20) dNod).strata.map
        (fun p => (p.1, p.2.control_rate, p.2.effect_size, p.2.relative_effect))
      = [("US", 0, 1, 0)] := by
  rw [strata_dNod_eval]
  rfl

/-- C1 (amended): at stratum scope a zero control rate yields the reported
relative effect `0` (silent coercion, no not-a-number marker), while a
positive control rate yields `effect / control_rate * 100`; at overall scope
there is no guard at all — with a zero control rate the relative effect is the
non-finite float `inf` (treatment conversions present) or `NaN` (no treatment
conversions), still without raising, and with a positive control rate it is
the finite value of the same formula. -/
theorem C1_relative_effect (Phi ppf sq : ℚ → ℚ) (a : ℚ) (d : List Obs) :
    (∀ c r, (c, r) ∈ (statistical_tests Phi ppf sq a d).strata →
      (r.control_rate = 0 → r.relative_effect = 0)
      ∧ (0 < r.control_rate →
          r.relative_effect = r.effect_size / r.control_rate * 100))
    ∧ (0 < cSizeAll d → 0 < tSizeAll d →
        (cConvAll d = 0 → 0 < tConvAll d →
          (statistical_tests Phi ppf sq a d).overall.relative_effect = PyFloat.inf)
        ∧ (cConvAll d = 0 → tConvAll d = 0 →
          (statistical_tests Phi ppf sq a d).overall.relative_effect = PyFloat.nan)
        ∧ (0 < cConvAll d →
          (statistical_tests Phi ppf sq a d).overall.relative_effect
            = PyFloat.val ((((tConvAll d : ℚ) / tSizeAll d) - (cConvAll d : ℚ) / cSizeAll d)
                / ((cConvAll d : ℚ) / cSizeAll d) * 100))) := by
  constructor
  · intro c r hm
    obtain ⟨-, -, -, rfl⟩ := mem_strata_iff.1 hm
    rw [mkStratum_rel_effect]
    constructor
    · intro h0
      rw [h0, if_neg (lt_irrefl 0)]
    · intro hpos
      rw [if_pos hpos]
  · intro hcn htn
    have hcne : cSizeAll d ≠ 0 := Nat.pos_iff_ne_zero.1 hcn
    have htne : tSizeAll d ≠ 0 := Nat.pos_iff_ne_zero.1 htn
    refine ⟨?_, ?_, ?_⟩
    · intro hc0 htc
      have htq : 0 < (tConvAll d : ℚ) / (tSizeAll d : ℚ) :=
        div_pos (by exact_mod_cast htc) (by exact_mod_cast htn)
      show (((PyFloat.npRat (tConvAll d) (tSizeAll d)).sub
              (PyFloat.npRat (cConvAll d) (cSizeAll d))).div
                (PyFloat.npRat (cConvAll d) (cSizeAll d))).mul (.val 100) = PyFloat.inf
      rw [PyFloat.npRat, PyFloat.npRat, if_neg htne, if_neg hcne, hc0]
      simp only [Nat.cast_zero, zero_div, PyFloat.sub, sub_zero, PyFloat.div,
        if_pos rfl, if_pos htq, PyFloat.mul]
      norm_num
    · intro hc0 htc0
      show (((PyFloat.npRat (tConvAll d) (tSizeAll d)).sub
              (PyFloat.npRat (cConvAll d) (cSizeAll d))).div
                (PyFloat.npRat (cConvAll d) (cSizeAll d))).mul (.val 100) = PyFloat.nan
      rw [PyFloat.npRat, PyFloat.npRat, if_neg htne, if_neg hcne, hc0, htc0]
      simp only [Nat.cast_zero, zero_div, PyFloat.sub, sub_zero, PyFloat.div, PyFloat.mul]
      norm_num
    · intro hcc
      have hcq : 0 < (cConvAll d : ℚ) / (cSizeAll d : ℚ) :=
        div_pos (by exact_mod_cast hcc) (by exact_mod_cast hcn)
      show (((PyFloat.npRat (tConvAll d) (tSizeAll d)).sub
              (PyFloat.npRat (cConvAll d) (cSizeAll d))).div
                (PyFloat.npRat (cConvAll d) (cSizeAll d))).mul (.val 100)
          = PyFloat.val ((((tConvAll d : ℚ) / tSizeAll d) - (cConvAll d : ℚ) / cSizeAll d)
              / ((cConvAll d : ℚ) / cSizeAll d) * 100)
      rw [PyFloat.npRat, PyFloat.npRat, if_neg htne, if_neg hcne]
      simp only [PyFloat.sub, PyFloat.div, if_neg (ne_of_gt hcq), PyFloat.mul]

/-- Witness for C1: on `dNod` the US stratum has control rate 0 and reports
relative effect 0, and the overall relative effect is the non-finite `inf`. -/
theorem C1_witness :
    StratumResult.relative_effect ⟨0, 1, 1, 0, some 2, some (-2), true, 1, 1⟩ = 0
    ∧ (statistical_tests id id id (1/20) dNod).overall.relative_effect = PyFloat.inf := by
  have hm : ("US", (⟨0, 1, 1, 0, some 2, some (-2), true, 1, 1⟩ : StratumResult))
      ∈ (statistical_tests id id id (1/20) dNod).strata := by
    rw [strata_dNod_eval]
    exact List.mem_singleton.2 rfl
  refine ⟨((C1_relative_effect id id id (1/20) dNod).1 "US" _ hm).1 rfl, ?_⟩
  exact ((C1_relative_effect id id id (1/20) dNod).2 (by decide) (by decide)).1
    (by decide) (by decide)

/-- C2 counterexample: on `dC2` the source divides the nominal alpha by the
number of *all* distinct strata (2), although only one stratum (US) has both
arms populated, so the claimed `k` is 1; with a p-value of `3/100` the stratum
is declared not significant under the code's threshold `1/40` although it
would be significant under the claimed threshold `1/20`. -/
theorem C2_counterexample :
    nTests dC2 = 2
    ∧ specStrataCount dC2 = 1
    ∧ (statistical_tests (fun _ => 197/200) id id (1/20) dC2).strata.map
        (fun p => (p.1, p.2.p_value, p.2.p_value_adjusted))
      = [("US", some (3/100), false)]
    ∧ optLt (some (3/100)) ((1/20 : ℚ) / (specStrataCount dC2 : ℚ)) = true := by
  refine ⟨by decide, by decide, ?_, ?_⟩
  · rw [strata_dC2_eval]
    rfl
  · have h : specStrataCount dC2 = 1 := by decide
    rw [h]
    norm_num [optLt]

/-- C2 (amended): the Bonferroni divisor is the number of all distinct stratum
values present (computed before any per-stratum guard), so the number of
strata actually tested — which equals the claim's `k`, the count of strata
with both arms populated — can be strictly smaller; every per-stratum
corrected flag compares against `alpha / nTests`. -/
theorem C2_bonferroni_uses_all_strata (Phi ppf sq : ℚ → ℚ) (a : ℚ) (d : List Obs) :
    (statistical_tests Phi ppf sq a d).strata.length = specStrataCount d
    ∧ (statistical_tests Phi ppf sq a d).strata.length ≤ nTests d
    ∧ ∀ c r, (c, r) ∈ (statistical_tests Phi ppf sq a d).strata →
        r.p_value_adjusted = optLt r.p_value (a / (nTests d : ℚ)) := by
  refine ⟨strataResults_length Phi ppf sq a d, ?_, ?_⟩
  · show (strataResults Phi ppf sq a d).length ≤ nTests d
    unfold strataResults nTests
    exact List.length_filterMap_le _ _
  · intro c r hm
    obtain ⟨-, -, -, rfl⟩ := mem_strata_iff.1 hm
    rfl

/-- Witness for C2 at the concrete `dC2` member. -/
theorem C2_witness :
    StratumResult.p_value_adjusted
        ⟨1/2, 1, 1/2, 100, some (3/2), some (3/100), false, 241/640, 399/640⟩
      = optLt (StratumResult.p_value
          ⟨1/2, 1, 1/2, 100, some (3/2), some (3/100), false, 241/640, 399/640⟩)
          ((1/20 : ℚ) / (nTests dC2 : ℚ)) := by
  have hm : ("US", (⟨1/2, 1, 1/2, 100, some (3/2), some (3/100), false, 241/640,
      399/640⟩ : StratumResult))
      ∈ (statistical_tests (fun _ => 197/200) id id (1/20) dC2).strata := by
    rw [strata_dC2_eval]
    exact List.mem_singleton.2 rfl
  exact (C2_bonferroni_uses_all_strata (fun _ => 197/200) id id (1/20) dC2).2.2 "US" _ hm

/-- C3 counterexample: the UK stratum of `dC3` has zero treatment trials; no
`InsufficientDataError` (or any error) is raised — the stratum is silently
absent from the result mapping.  And on `dC3b`, whose overall control arm has
zero trials, the analysis does not abort: it returns a complete `ResultSet`
whose overall statistics are NaN (`none` / `PyFloat.nan`). -/
theorem C3_counterexample :
    (statistical_tests id id id (1/20) dC3).strata.map Prod.fst = ["US"]
    ∧ (statistical_tests id id id (1/20) dC3b).overall.z_stat = none
    ∧ (statistical_tests id id id (1/20) dC3b).overall.p_value = none
    ∧ (statistical_tests id id id (1/20) dC3b).overall.control_rate = PyFloat.nan
    ∧ (statistical_tests id id id (1/20) dC3b).strata = [] := by
  refine ⟨?_, rfl, rfl, rfl, ?_⟩
  · rw [strata_keys]
    decide
  · show strataResults id id id (1/20) dC3b = []
    rfl

/-- C3 (amended): a stratum appears in the result mapping exactly when it is a
present stratum value with at least one trial in each arm — a zero-trial
stratum is skipped silently (no error exists in the source), and the test
engine itself, fed a zero-trial arm, returns NaN statistics instead of
failing; the overall analysis always returns a `ResultSet`. -/
theorem C3_zero_trials_skipped (Phi ppf sq : ℚ → ℚ) (a : ℚ) (d : List Obs) (c : String) :
    ((∃ r, (c, r) ∈ (statistical_tests Phi ppf sq a d).strata) ↔
      c ∈ uniqueVals (d.map (·.country)) ∧ 0 < cSizeOf d c ∧ 0 < tSizeOf d c)
    ∧ (∀ x1 x2 n2, proportions_ztest Phi sq x1 0 x2 n2 = (none, none))
    ∧ (∀ x1 n1 x2, proportions_ztest Phi sq x1 n1 x2 0 = (none, none)) := by
  refine ⟨⟨?_, ?_⟩, ?_, ?_⟩
  · rintro ⟨r, hm⟩
    obtain ⟨h1, h2, h3, -⟩ := mem_strata_iff.1 hm
    exact ⟨h1, h2, h3⟩
  · rintro ⟨h1, h2, h3⟩
    exact ⟨_, mem_strata_iff.2 ⟨h1, h2, h3, rfl⟩⟩
  · intro x1 x2 n2
    rw [proportions_ztest, if_pos (Or.inl rfl)]
  · intro x1 n1 x2
    rw [proportions_ztest, if_pos (Or.inr rfl)]

/-- Witness for C3: the US stratum of `dC3` is present (both arms populated)
and the UK stratum is absent (zero treatment trials). -/
theorem C3_witness :
    (∃ r, ("US", r) ∈ (statistical_tests id id id (1/20) dC3).strata)
    ∧ ¬ (∃ r, ("UK", r) ∈ (statistical_tests id id id (1/20) dC3).strata) :=
  ⟨(C3_zero_trials_skipped id id id (1/20) dC3 "US").1.mpr (by decide),
   fun h => by
    have := (C3_zero_trials_skipped id id id (1/20) dC3 "UK").1.mp h
    revert this
    decide⟩

/-- C5: confirmed — at both scopes the interval on the rate difference is
assembled from the two per-group proportion intervals taken at that scope's
alpha (nominal overall, Bonferroni-adjusted per stratum), with
`low = CI_low(treatment) - CI_high(control)` and
`high = CI_high(treatment) - CI_low(control)`. -/
theorem C5_confidence_interval (Phi ppf sq : ℚ → ℚ) (a : ℚ) (d : List Obs) :
    ((statistical_tests Phi ppf sq a d).overall.ci_low
        = (proportion_confint ppf sq (tConvAll d) (tSizeAll d) a).1
          - (proportion_confint ppf sq (cConvAll d) (cSizeAll d) a).2
      ∧ (statistical_tests Phi ppf sq a d).overall.ci_high
        = (proportion_confint ppf sq (tConvAll d) (tSizeAll d) a).2
          - (proportion_confint ppf sq (cConvAll d) (cSizeAll d) a).1)
    ∧ ∀ c r, (c, r) ∈ (statistical_tests Phi ppf sq a d).strata →
        r.ci_low
          = (proportion_confint ppf sq (tConvOf d c) (tSizeOf d c) (a / (nTests d : ℚ))).1
            - (proportion_confint ppf sq (cConvOf d c) (cSizeOf d c) (a / (nTests d : ℚ))).2
        ∧ r.ci_high
          = (proportion_confint ppf sq (tConvOf d c) (tSizeOf d c) (a / (nTests d : ℚ))).2
            - (proportion_confint ppf sq (cConvOf d c) (cSizeOf d c) (a / (nTests d : ℚ))).1 := by
  refine ⟨⟨rfl, rfl⟩, ?_⟩
  intro c r hm
  obtain ⟨-, -, -, rfl⟩ := mem_strata_iff.1 hm
  exact ⟨rfl, rfl⟩

/-- Witness for C5 at the concrete `dNod` member. -/
theorem C5_witness :
    StratumResult.ci_low ⟨0, 1, 1, 0, some 2, some (-2), true, 1, 1⟩
      = (proportion_confint id id (tConvOf dNod "US") (tSizeOf dNod "US")
          ((1/20 : ℚ) / (nTests dNod : ℚ))).1
        - (proportion_confint id id (cConvOf dNod "US") (cSizeOf dNod "US")
          ((1/20 : ℚ) / (nTests dNod : ℚ))).2 := by
  have hm : ("US", (⟨0, 1, 1, 0, some 2, some (-2), true, 1, 1⟩ : StratumResult))
      ∈ (statistical_tests id id id (1/20) dNod).strata := by
    rw [strata_dNod_eval]
    exact List.mem_singleton.2 rfl
  exact ((C5_confidence_interval id id id (1/20) dNod).2 "US" _ hm).1

/-- C7: confirmed — the overall significance flag is exactly
`p_value < nominal alpha` and each per-stratum corrected flag is exactly
`p_value < adjusted alpha` (the comparisons follow IEEE semantics, a NaN
p-value comparing false); no other threshold enters. -/
theorem C7_significance_flags (Phi ppf sq : ℚ → ℚ) (a : ℚ) (d : List Obs) :
    (statistical_tests Phi ppf sq a d).overall.significant
        = optLt (statistical_tests Phi ppf sq a d).overall.p_value a
    ∧ ∀ c r, (c, r) ∈ (statistical_tests Phi ppf sq a d).strata →
        r.p_value_adjusted = optLt r.p_value (a / (nTests d : ℚ)) := by
  refine ⟨rfl, ?_⟩
  intro c r hm
  obtain ⟨-, -, -, rfl⟩ := mem_strata_iff.1 hm
  rfl

/-- Witness for C7 at the concrete `dNod` member. -/
theorem C7_witness :
    StratumResult.p_value_adjusted ⟨0, 1, 1, 0, some 2, some (-2), true, 1, 1⟩
      = optLt (StratumResult.p_value ⟨0, 1, 1, 0, some 2, some (-2), true, 1, 1⟩)
          ((1/20 : ℚ) / (nTests dNod : ℚ)) := by
  have hm : ("US", (⟨0, 1, 1, 0, some 2, some (-2), true, 1, 1⟩ : StratumResult))
      ∈ (statistical_tests id id id (1/20) dNod).strata := by
    rw [strata_dNod_eval]
    exact List.mem_singleton.2 rfl
  exact (C7_significance_flags id id id (1/20) dNod).2 "US" _ hm

theorem pooledVar_swap (x1 n1 x2 n2 : ℕ) :
    pooledVar x2 n2 x1 n1 = pooledVar x1 n1 x2 n2 := by
  unfold pooledVar pHat
  ring

theorem rateDiff_swap (x1 n1 x2 n2 : ℕ) :
    rateDiff x2 n2 x1 n1 = - rateDiff x1 n1 x2 n2 := by
  unfold rateDiff
  ring

theorem zStat_swap (sq : ℚ → ℚ) (x1 n1 x2 n2 : ℕ) :
    zStat sq x2 n2 x1 n1 = - zStat sq x1 n1 x2 n2 := by
  unfold zStat
  rw [pooledVar_swap, rateDiff_swap]
  ring

/-- C6: confirmed — the power estimator computes Cohen's h as
`2 * (arcsin (sqrt treatment_rate) - arcsin (sqrt control_rate))`, uses the
average per-group sample size `(n_control + n_treatment) / 2`, hands both to
the two-sided achieved-power routine at alpha `1/20`, and (the power routine
being a probability-valued numeric collaborator) the result lies in `[0, 1]`. -/
theorem C6_power_analysis (arcsinFn sq : ℚ → ℚ) (powerFn : ℚ → ℚ → ℚ → ℚ) (d : List Obs)
    (hc : 0 < cSizeAll d) (ht : 0 < tSizeAll d)
    (hrange : ∀ e n al, 0 ≤ powerFn e n al ∧ powerFn e n al ≤ 1) :
    power_analysis arcsinFn sq powerFn (1/20) d
      = powerFn
          (2 * (arcsinFn (sq ((tConvAll d : ℚ) / (tSizeAll d : ℚ)))
            - arcsinFn (sq ((cConvAll d : ℚ) / (cSizeAll d : ℚ)))))
          (((cSizeAll d : ℚ) + (tSizeAll d : ℚ)) / 2) (1/20)
    ∧ 0 ≤ power_analysis arcsinFn sq powerFn (1/20) d
    ∧ power_analysis arcsinFn sq powerFn (1/20) d ≤ 1 :=
  ⟨rfl, (hrange _ _ _).1, (hrange _ _ _).2⟩

/-- Witness for C6 at `dNod` with a constant-half power collaborator. -/
theorem C6_witness :
    0 ≤ power_analysis id id (fun _ _ _ => 1/2) (1/20) dNod
    ∧ power_analysis id id (fun _ _ _ => 1/2) (1/20) dNod ≤ 1 :=
  ⟨(C6_power_analysis id id (fun _ _ _ => 1/2) dNod (by decide) (by decide)
      (fun e n al => by norm_num)).2.1,
   (C6_power_analysis id id (fun _ _ _ => 1/2) dNod (by decide) (by decide)
      (fun e n al => by norm_num)).2.2⟩

/-- C8 counterexample: with zero successes in both arms (trials 1 and 1) the
pooled variance is 0 and the z statistic is the NaN `0/0`, so the test
returns no p-value in `[0, 1]` — both the z statistic and the p-value are
NaN. -/
theorem C8_counterexample : proportions_ztest id id 0 1 0 1 = (none, none) := by
  have h2 : pooledVar 0 1 0 1 = 0 := by norm_num [pooledVar, pHat]
  rw [proportions_ztest, if_neg (by norm_num), if_pos h2]

/-- C8 (amended): for positive trial counts with successes bounded by trials
and a non-degenerate pooled rate (not all failures, not all successes), the
p-value exists and lies in `[0, 1]` — for any monotone normal-CDF collaborator
with `Phi 0 = 1/2` and `Phi ≤ 1` — and swapping the two samples preserves the
p-value while negating the z statistic and the effect (rate difference); at
the degenerate edges the statistic and p-value are NaN instead of numbers in
`[0, 1]`. -/
theorem C8_pvalue_swap (Phi sq : ℚ → ℚ) (s1 n1 s2 n2 : ℕ)
    (h1 : 0 < n1) (h2 : 0 < n2) (hs1 : s1 ≤ n1) (hs2 : s2 ≤ n2)
    (hlo : 0 < s1 + s2) (hhi : s1 + s2 < n1 + n2)
    (hmono : Monotone Phi) (h0 : Phi 0 = 1/2) (hle : ∀ x, Phi x ≤ 1) :
    (∃ p, (proportions_ztest Phi sq s1 n1 s2 n2).2 = some p ∧ 0 ≤ p ∧ p ≤ 1)
    ∧ (proportions_ztest Phi sq s2 n2 s1 n1).2 = (proportions_ztest Phi sq s1 n1 s2 n2).2
    ∧ (proportions_ztest Phi sq s2 n2 s1 n1).1
        = Option.map (fun z => -z) (proportions_ztest Phi sq s1 n1 s2 n2).1
    ∧ rateDiff s2 n2 s1 n1 = - rateDiff s1 n1 s2 n2 := by
  have hn : ¬ (n1 = 0 ∨ n2 = 0) := by omega
  have hnsw : ¬ (n2 = 0 ∨ n1 = 0) := by omega
  have hden : (0 : ℚ) < (n1 : ℚ) + (n2 : ℚ) := by
    have : (0 : ℕ) < n1 + n2 := by omega
    exact_mod_cast this
  have hppos : 0 < pHat s1 n1 s2 n2 := by
    unfold pHat
    apply div_pos _ hden
    have : (0 : ℕ) < s1 + s2 := hlo
    exact_mod_cast this
  have hplt : pHat s1 n1 s2 n2 < 1 := by
    unfold pHat
    rw [div_lt_one hden]
    exact_mod_cast hhi
  have hvar : 0 < pooledVar s1 n1 s2 n2 := by
    unfold pooledVar
    apply mul_pos (mul_pos hppos (by linarith))
    have ha : (0 : ℚ) < 1 / (n1 : ℚ) := by
      apply one_div_pos.2
      exact_mod_cast h1
    have hb : (0 : ℚ) < 1 / (n2 : ℚ) := by
      apply one_div_pos.2
      exact_mod_cast h2
    linarith
  have hvne : pooledVar s1 n1 s2 n2 ≠ 0 := ne_of_gt hvar
  have hvnesw : pooledVar s2 n2 s1 n1 ≠ 0 := by
    rw [pooledVar_swap]
    exact hvne
  rw [proportions_ztest, proportions_ztest, if_neg hn, if_neg hnsw, if_neg hvne,
    if_neg hvnesw]
  refine ⟨⟨2 * (1 - Phi |zStat sq s1 n1 s2 n2|), rfl, ?_, ?_⟩, ?_, ?_,
    rateDiff_swap s1 n1 s2 n2⟩
  · have := hle |zStat sq s1 n1 s2 n2|
    linarith
  · have habs : (0 : ℚ) ≤ |zStat sq s1 n1 s2 n2| := abs_nonneg _
    have hm := hmono habs
    rw [h0] at hm
    linarith
  · show some (2 * (1 - Phi |zStat sq s2 n2 s1 n1|)) = some (2 * (1 - Phi |zStat sq s1 n1 s2 n2|))
    rw [zStat_swap, abs_neg]
  · show some (zStat sq s2 n2 s1 n1) = Option.map (fun z => -z) (some (zStat sq s1 n1 s2 n2))
    rw [zStat_swap]
    rfl

/-- Witness for C8 at `s1 = 1, n1 = 2, s2 = 0, n2 = 2` with the constant-half
CDF stand-in. -/
theorem C8_witness :
    (∃ p, (proportions_ztest (fun _ => 1/2) id 1 2 0 2).2 = some p ∧ 0 ≤ p ∧ p ≤ 1)
    ∧ (proportions_ztest (fun _ => 1/2) id 0 2 1 2).2
        = (proportions_ztest (fun _ => 1/2) id 1 2 0 2).2 := by
  have h := C8_pvalue_swap (fun _ => 1/2) id 1 2 0 2 (by norm_num) (by norm_num)
    (by norm_num) (by norm_num) (by norm_num) (by norm_num)
    monotone_const rfl (fun x => by norm_num)
  exact ⟨h.1, h.2.1⟩

end ABTest
